import Mathlib

/-!
Verification of the RAG chatbot backend (FastAPI + pgvector + LangChain).

Shallow embedding of the data model and the operations of the repository:

* app/repositories/vector_store.py : VectorStoreRepository
* app/repositories/chat_repository.py : ChatRepository
* app/repositories/document_repository.py : DocumentRepository (status updates)
* app/services/chat_service.py : ChatService
* app/services/document_service.py : DocumentService
* app/api/routes/upload.py : upload_document (MIME validation)

Python dict metadata is embedded as an association list with first-match
lookup; dict.update is embedded as an overwriting insert.  Fallible calls
(database, embedding backend, LLM) are embedded as Except values or as
explicit Boolean step outcomes supplied by the caller, so every behaviour
of the external services is quantified over.  Timestamps are embedded as a
logical clock (the store length at insertion time), which is monotone just
as the real created_at column default is.
-/

namespace RagChatbot

/-- Metadata lookup: first pair whose key matches, as in a Python dict. -/
def getMeta (m : List (String × String)) (k : String) : Option String :=
  (m.find? (fun p => p.1 == k)).map (fun p => p.2)

/-- Key membership test, embedding the Python test `k in d.metadata`. -/
def hasKey (m : List (String × String)) (k : String) : Bool :=
  m.any (fun p => p.1 == k)

/-- Overwriting insert, embedding `d.metadata.update(\x7bk: v\x7d)` for one key. -/
def setMeta (m : List (String × String)) (k v : String) : List (String × String) :=
  (k, v) :: m.filter (fun p => !(p.1 == k))

/-- A LangChain Document: page content plus metadata dict. -/
structure Doc where
  page_content : String
  metadata : List (String × String)
deriving DecidableEq, Repr

theorem getMeta_setMeta_same (m : List (String × String)) (k v : String) :
    getMeta (setMeta m k v) k = some v := by
  simp [getMeta, setMeta]

theorem getMeta_setMeta_other (m : List (String × String)) (k k' v : String)
    (h : k' ≠ k) : getMeta (setMeta m k v) k' = getMeta m k' := by
  have hne : (k == k') = false := by
    simp [beq_eq_false_iff_ne]
    exact fun he => h he.symm
  induction m with
  | nil => simp [getMeta, setMeta, hne]
  | cons a t ih =>
    by_cases ha : a.1 = k
    · have h1 : (a.1 == k) = true := by simp [ha]
      have h2 : (a.1 == k') = false := by
        simp [beq_eq_false_iff_ne, ha]
        exact fun he => h he.symm
      simp only [getMeta, setMeta, List.filter_cons, h1] at *
      simpa [List.find?, h2, hne] using ih
    · have h1 : (a.1 == k) = false := by simp [beq_eq_false_iff_ne, ha]
      by_cases ha' : a.1 = k'
      · have h2 : (a.1 == k') = true := by simp [ha']
        simp [getMeta, setMeta, List.filter_cons, h1, List.find?, h2, hne]
      · have h2 : (a.1 == k') = false := by simp [beq_eq_false_iff_ne, ha']
        simp only [getMeta, setMeta, List.filter_cons, h1] at *
        simpa [List.find?, h2, hne] using ih

/-! ### Vector store repository (app/repositories/vector_store.py)

The PGVector backend itself is external library code; its documented
behaviour for asimilarity_search with a metadata filter (rank the stored
entries that match every key of the filter by similarity to the query and
return the best k) is embedded as backendSearch, parametric in an abstract
similarity score.  The repository methods are embedded from the source. -/

/-- An entry matches a PGVector metadata filter when every filter key is
present in its metadata with the given value. -/
def matchesFilter (filt : List (String × String)) (d : Doc) : Bool :=
  filt.all (fun p => getMeta d.metadata p.1 == some p.2)

/-- Descending-score ordering used to rank candidates. -/
def scoreGe (score : Doc → Nat) (a b : Doc) : Prop :=
  score b ≤ score a

instance (score : Doc → Nat) : DecidableRel (scoreGe score) :=
  fun _ _ => Nat.decLe _ _

instance (score : Doc → Nat) : IsTotal Doc (scoreGe score) :=
  ⟨fun a b => Nat.le_total (score b) (score a)⟩

instance (score : Doc → Nat) : IsTrans Doc (scoreGe score) :=
  ⟨fun _ _ _ h1 h2 => Nat.le_trans h2 h1⟩

/-- PGVector filtered similarity search: keep the entries matching the
metadata filter, rank them by similarity to the query, return the top k. -/
def backendSearch (score : String → Doc → Nat) (store : List Doc)
    (query : String) (k : Nat) (filt : List (String × String)) : List Doc :=
  (List.insertionSort (scoreGe (score query)) (store.filter (matchesFilter filt))).take k

/-- A healthy PGVector backend over a given store and similarity score. -/
def pgBackend (score : String → Doc → Nat) (store : List Doc) :
    String → Nat → List (String × String) → Except String (List Doc) :=
  fun query k filt => Except.ok (backendSearch score store query k filt)

/-- VectorStoreRepository.similarity_search: builds the session filter,
invokes the backend, and on any backend error returns the empty list
(the try/except of the source).  The backend is a parameter so every
backend behaviour, including raising, is covered. -/
def similarity_search
    (backend : String → Nat → List (String × String) → Except String (List Doc))
    (query : String) (session_id : String) (k : Nat) : List Doc :=
  match backend query k [("session_id", session_id)] with
  | Except.ok results => results
  | Except.error _ => []

/-- VectorStoreRepository.add_documents: validate that every document has a
session_id key in its metadata, then hand the batch to the backend.  The
first component is the outcome (an Except.error embeds a raised exception),
the second is the store contents afterwards.  aaddOk tells whether the
backend aadd_documents call itself succeeds. -/
def add_documents (aaddOk : Bool) (store docs : List Doc) :
    Except String Unit × List Doc :=
  if docs.all (fun d => hasKey d.metadata "session_id") then
    if aaddOk then (Except.ok (), store ++ docs)
    else (Except.error "vector backend failure", store)
  else (Except.error "session_id required in document metadata", store)

theorem add_documents_ok (aaddOk : Bool) (store docs s' : List Doc)
    (h : add_documents aaddOk store docs = (Except.ok (), s')) :
    s' = store ++ docs ∧ aaddOk = true := by
  by_cases hv : docs.all (fun d => hasKey d.metadata "session_id")
  · cases aaddOk with
    | true =>
      refine ⟨?_, rfl⟩
      exact (by simpa [add_documents, hv] using congrArg Prod.snd h : store ++ docs = s').symm
    | false => simp [add_documents, hv] at h
  · simp [add_documents, hv] at h

/-! ### Chat repository (app/repositories/chat_repository.py)

A ChatMessage row: session_id, role, content, created_at.  The created_at
column default (insertion time) is embedded as a logical clock equal to the
store length at insertion, which is monotone exactly like the real clock. -/

structure StoredMsg where
  session_id : String
  role : String
  content : String
  created_at : Nat
deriving DecidableEq, Repr

/-- Newest-first ordering used by the ORDER BY created_at DESC of the query. -/
def newerEq (a b : StoredMsg) : Prop :=
  b.created_at ≤ a.created_at

instance : DecidableRel newerEq :=
  fun _ _ => Nat.decLe _ _

instance : IsTotal StoredMsg newerEq :=
  ⟨fun a b => Nat.le_total b.created_at a.created_at⟩

instance : IsTrans StoredMsg newerEq :=
  ⟨fun _ _ _ h1 h2 => Nat.le_trans h2 h1⟩

/-- ChatRepository.add_message: insert a row for the session with the
current clock value as created_at. -/
def add_message (db : List StoredMsg) (session_id role content : String) :
    List StoredMsg :=
  db ++ [⟨session_id, role, content, db.length⟩]

/-- ChatRepository.get_history: select the session rows ordered newest
first, keep at most limit of them, then reverse to chronological order.
The SELECT with ORDER BY created_at DESC is embedded as a stable sort of
the session rows by descending created_at. -/
def get_history (db : List StoredMsg) (session_id : String) (limit : Nat) :
    List StoredMsg :=
  (((db.filter (fun m => m.session_id == session_id)).insertionSort newerEq).take
      limit).reverse

theorem length_get_history (db : List StoredMsg) (sid : String) (limit : Nat) :
    (get_history db sid limit).length =
      min limit (db.filter (fun m => m.session_id == sid)).length := by
  simp [get_history]

theorem sorted_get_history (db : List StoredMsg) (sid : String) (limit : Nat) :
    (get_history db sid limit).Pairwise
      (fun a b => a.created_at ≤ b.created_at) := by
  have hs : ((db.filter (fun m => m.session_id == sid)).insertionSort
      newerEq).Pairwise newerEq :=
    List.sorted_insertionSort newerEq _
  have ht : (((db.filter (fun m => m.session_id == sid)).insertionSort
      newerEq).take limit).Pairwise newerEq :=
    hs.sublist (List.take_sublist _ _)
  have := List.pairwise_reverse.mpr ht
  simpa [get_history, newerEq] using List.pairwise_reverse.mpr ht

theorem mem_get_history_session (db : List StoredMsg) (sid : String)
    (limit : Nat) (m : StoredMsg) (h : m ∈ get_history db sid limit) :
    m.session_id = sid := by
  simp only [get_history, List.mem_reverse] at h
  have h2 := List.mem_insertionSort newerEq |>.mp (List.mem_of_mem_take h)
  simpa using (List.mem_filter.mp h2).2

/-- If x is strictly newer than everything in xs, the descending sort of
xs ++ [x] starts with x. -/
theorem insertionSort_strict_max_head (xs : List StoredMsg) (x : StoredMsg)
    (h : ∀ a ∈ xs, a.created_at < x.created_at) :
    ∃ t, List.insertionSort newerEq (xs ++ [x]) = x :: t := by
  cases hs : List.insertionSort newerEq (xs ++ [x]) with
  | nil =>
    exfalso
    have hl := List.length_insertionSort newerEq (xs ++ [x])
    rw [hs] at hl
    simp at hl
  | cons b t =>
    have hperm : (b :: t).Perm (xs ++ [x]) := by
      rw [← hs]; exact List.perm_insertionSort newerEq (xs ++ [x])
    by_cases hbx : b = x
    · subst hbx; exact ⟨t, rfl⟩
    · exfalso
      have hbmem : b ∈ xs ++ [x] := hperm.subset (List.mem_cons_self b t)
      have hbxs : b ∈ xs := by
        rcases List.mem_append.mp hbmem with h1 | h1
        · exact h1
        · exact absurd (List.mem_singleton.mp h1) hbx
      have hxmem : x ∈ b :: t :=
        hperm.mem_iff.mpr (List.mem_append.mpr (Or.inr (List.mem_singleton.mpr rfl)))
      have hxt : x ∈ t := by
        rcases List.mem_cons.mp hxmem with h1 | h1
        · exact absurd h1.symm hbx
        · exact h1
      have hsorted : (b :: t).Pairwise newerEq := by
        rw [← hs]; exact List.sorted_insertionSort newerEq (xs ++ [x])
      have hle : newerEq b x := (List.pairwise_cons.mp hsorted).1 x hxt
      have hlt : b.created_at < x.created_at := h b hbxs
      exact absurd hle (by simp [newerEq]; omega)

/-- Any last element of a list remains a member after dropping at most the
other elements. -/
theorem mem_drop_append_singleton (w : List StoredMsg) (x : StoredMsg)
    (d : Nat) (h : d ≤ w.length) : x ∈ (w ++ [x]).drop d := by
  induction w generalizing d with
  | nil =>
    have : d = 0 := Nat.le_zero.mp h
    simp [this]
  | cons a t ih =>
    cases d with
    | zero => simp
    | succ d' =>
      have : d' ≤ t.length := Nat.le_of_succ_le_succ h
      simpa using ih d' this

/-! ### Chat service (app/services/chat_service.py) -/

/-- A LangChain message passed to the LLM. -/
inductive LlmMsg where
  | system (content : String)
  | human (content : String)
  | ai (content : String)
deriving DecidableEq, Repr

/-- The system prompt used when retrieved context is non-empty, with the
context interpolated (the f-string of _build_messages). -/
def rag_system_prompt (context : String) : String :=
  "You are a helpful AI assistant. Use the following context from uploaded documents to answer the user\x27s question accurately.\n\nContext from documents:\n"
    ++ context
    ++ "\n\nInstructions:\n- Answer based on the provided context when relevant\n- If the context doesn\x27t contain the answer, say so\n- Be concise and helpful\n- Maintain conversation continuity"

/-- The system prompt used when no context was retrieved. -/
def plain_system_prompt : String :=
  "You are a helpful AI assistant. Answer the user\x27s questions concisely and accurately."

/-- The role dispatch of the history loop in _build_messages: user rows map
to HumanMessage, assistant rows to AIMessage, anything else is skipped. -/
def roleToMsg (m : StoredMsg) : Option LlmMsg :=
  if m.role == "user" then some (LlmMsg.human m.content)
  else if m.role == "assistant" then some (LlmMsg.ai m.content)
  else none

/-- ChatService._build_messages: one system message chosen by whether the
context is non-empty, then the last six history rows mapped to their roles,
then the current user message. -/
def build_messages (user_message context : String) (history : List StoredMsg) :
    List LlmMsg :=
  [LlmMsg.system
      (if context ≠ "" then rag_system_prompt context else plain_system_prompt)]
    ++ (history.drop (history.length - 6)).filterMap roleToMsg
    ++ [LlmMsg.human user_message]

/-- The message list sent by ChatService._fallback_response. -/
def fallback_messages (message : String) : List LlmMsg :=
  [LlmMsg.system "You are a helpful assistant.", LlmMsg.human message]

/-- The fixed user-facing apology returned when the fallback LLM call also
fails. -/
def apology_text : String :=
  "I apologize, but I\x27m having trouble processing your request right now. Please try again later."

/-- ChatService._fallback_response: one minimal instruction plus the user
message; if the LLM call raises, return the fixed apology. -/
def fallback_response (llm : List LlmMsg → Except String String)
    (message : String) : String :=
  match llm (fallback_messages message) with
  | Except.ok r => r
  | Except.error _ => apology_text

/-- Behaviour of the external services during one generate_response call:
whether each chat-repository write and read succeeds, whether the vector
backend raises, and what the LLM returns on each message list. -/
structure ChatEnv where
  addUserOk : Bool
  getHistOk : Bool
  backendErr : Bool
  llmRes : List LlmMsg → Except String String
  addAsstOk : Bool

/-- The vector backend as seen during the call: raises on every request
when backendErr is set, otherwise behaves as a healthy PGVector. -/
def envBackend (env : ChatEnv) (score : String → Doc → Nat) (vstore : List Doc) :
    String → Nat → List (String × String) → Except String (List Doc) :=
  fun query k filt =>
    if env.backendErr then Except.error "vector backend failure"
    else Except.ok (backendSearch score vstore query k filt)

/-- The generation request built on the main path of generate_response:
history fetched after the user message was appended (limit 10), context
joined from the session-filtered retrieval (k = 4), then _build_messages. -/
def main_request (env : ChatEnv) (score : String → Doc → Nat)
    (vstore : List Doc) (db : List StoredMsg) (session_id user_message : String) :
    List LlmMsg :=
  let db1 := add_message db session_id "user" user_message
  let history := get_history db1 session_id 10
  let relevant := similarity_search (envBackend env score vstore) user_message session_id 4
  let context :=
    if relevant.isEmpty then ""
    else String.intercalate "\n\n" (relevant.map Doc.page_content)
  build_messages user_message context history

/-- Result of one generate_response call: the string handed to the caller,
the chat store afterwards, and the message lists sent to the LLM in order. -/
structure ChatResult where
  reply : String
  finalHistory : List StoredMsg
  requests : List (List LlmMsg)
deriving DecidableEq, Repr

/-- ChatService.generate_response.  The whole body of the source method is
one try/except whose handler calls _fallback_response, so a failure of any
step (including appending the user message) yields the fallback reply; the
store reflects exactly the writes that succeeded before the failure. -/
def generate_response (env : ChatEnv) (score : String → Doc → Nat)
    (vstore : List Doc) (db : List StoredMsg) (session_id user_message : String) :
    ChatResult :=
  if env.addUserOk = false then
    { reply := fallback_response env.llmRes user_message
      finalHistory := db
      requests := [fallback_messages user_message] }
  else
    let db1 := add_message db session_id "user" user_message
    if env.getHistOk = false then
      { reply := fallback_response env.llmRes user_message
        finalHistory := db1
        requests := [fallback_messages user_message] }
    else
      let messages := main_request env score vstore db session_id user_message
      match env.llmRes messages with
      | Except.error _ =>
        { reply := fallback_response env.llmRes user_message
          finalHistory := db1
          requests := [messages, fallback_messages user_message] }
      | Except.ok assistant_message =>
        if env.addAsstOk = false then
          { reply := fallback_response env.llmRes user_message
            finalHistory := db1
            requests := [messages, fallback_messages user_message] }
        else
          { reply := assistant_message
            finalHistory := add_message db1 session_id "assistant" assistant_message
            requests := [messages] }

/-! ### Document ingestion (app/services/document_service.py,
app/repositories/document_repository.py, app/api/routes/upload.py) -/

/-- The status column of a document row. -/
inductive DocStatus where
  | pending
  | processing
  | indexed
  | failed
deriving DecidableEq, Repr

/-- The loader chosen by the MIME dispatch of ingest_document. -/
inductive LoaderKind where
  | pdf
  | text
deriving DecidableEq, Repr

/-- The MIME dispatch of ingest_document step 4: PyPDFLoader for
application/pdf, TextLoader for text/plain or text/markdown, otherwise a
raised ValueError. -/
def selectLoader (mime : String) : Except String LoaderKind :=
  if mime == "application/pdf" then Except.ok LoaderKind.pdf
  else if mime == "text/plain" || mime == "text/markdown" then
    Except.ok LoaderKind.text
  else Except.error ("Unsupported file type: " ++ mime)

/-- The allowed_types list of the upload route. -/
def upload_allowed_types : List String :=
  ["application/pdf", "text/plain"]

/-- upload_document of app/api/routes/upload.py: the declared content type
must be in allowed_types or the request is rejected with HTTP 400. -/
def uploadAccepts (mime : String) : Bool :=
  upload_allowed_types.contains mime

/-- The metadata stamping of ingest_document step 6 for one chunk:
chunk.metadata.update with session_id, document_id and filename. -/
def stampChunk (session_id document_id filename : String) (c : Doc) : Doc :=
  { c with
      metadata :=
        setMeta (setMeta (setMeta c.metadata "session_id" session_id)
          "document_id" document_id) "filename" filename }

/-- Success or failure of each effectful step of one ingest_document call:
the document-row insert, the two or three status updates, the temp-file
write, the loader call and the backend aadd_documents call. -/
structure IngestEnv where
  createOk : Bool
  procUpdOk : Bool
  tempWriteOk : Bool
  loadOk : Bool
  aaddOk : Bool
  indexedUpdOk : Bool
  failedUpdOk : Bool

/-- The status write attempted by the except handler: recorded only when
that update itself succeeds. -/
def failTail (env : IngestEnv) : List DocStatus :=
  if env.failedUpdOk then [DocStatus.failed] else []

/-- Result of one ingest_document call: the sequence of status values
successfully written for the document, the vector store afterwards, and
the returned document id (none when the call raised). -/
structure IngestResult where
  trace : List DocStatus
  store : List Doc
  ret : Option String
deriving DecidableEq, Repr

/-- DocumentService.ingest_document.  parsed stands for the loader output
on this file and splitter for the RecursiveCharacterTextSplitter, both
external library calls.  Every effectful step may fail as dictated by env;
a failure after the document row exists makes the except handler attempt
the failed-status update and re-raise. -/
def ingest_document (env : IngestEnv) (vstore : List Doc) (parsed : List Doc)
    (splitter : List Doc → List Doc)
    (session_id document_id filename mime : String) : IngestResult :=
  if env.createOk = false then ⟨[], vstore, none⟩
  else if env.procUpdOk = false then
    ⟨DocStatus.pending :: failTail env, vstore, none⟩
  else if env.tempWriteOk = false then
    ⟨[DocStatus.pending, DocStatus.processing] ++ failTail env, vstore, none⟩
  else
    match selectLoader mime with
    | Except.error _ =>
      ⟨[DocStatus.pending, DocStatus.processing] ++ failTail env, vstore, none⟩
    | Except.ok _ =>
      if env.loadOk = false then
        ⟨[DocStatus.pending, DocStatus.processing] ++ failTail env, vstore, none⟩
      else
        let chunks := splitter parsed
        let stamped := chunks.map (stampChunk session_id document_id filename)
        match add_documents env.aaddOk vstore stamped with
        | (Except.error _, store1) =>
          ⟨[DocStatus.pending, DocStatus.processing] ++ failTail env, store1, none⟩
        | (Except.ok _, store1) =>
          if env.indexedUpdOk = false then
            ⟨[DocStatus.pending, DocStatus.processing] ++ failTail env, store1, none⟩
          else
            ⟨[DocStatus.pending, DocStatus.processing, DocStatus.indexed],
              store1, some document_id⟩

/-- The status sequences allowed by the spec invariant: prefixes of
pending, processing, (indexed | failed). -/
def status_trace_ok (t : List DocStatus) : Bool :=
  t == [] || t == [DocStatus.pending] ||
    t == [DocStatus.pending, DocStatus.processing] ||
    t == [DocStatus.pending, DocStatus.processing, DocStatus.indexed] ||
    t == [DocStatus.pending, DocStatus.processing, DocStatus.failed]

/-! ### Concrete inputs used by witnesses and counterexamples -/

/-- A constant similarity score, a degenerate but legal ranking. -/
def score0 : String → Doc → Nat := fun _ _ => 0

/-- An entry stamped with session A. -/
def wDocA : Doc := ⟨"alpha content", [("session_id", "A")]⟩

/-- An entry stamped with session B. -/
def wDocB : Doc := ⟨"beta content", [("session_id", "B")]⟩

/-- An entry whose metadata has no session_id key at all. -/
def noSidDoc : Doc := ⟨"orphan content", []⟩

/-- An entry whose session_id key is present but maps to the empty string. -/
def emptySidDoc : Doc := ⟨"ghost content", [("session_id", "")]⟩

/-! ### Claim theorems -/

/-- C1: a similarity search filtered by session B only returns entries
whose metadata carries session_id B, and adding entries stamped with a
different session A neither changes nor is revealed by the results for B. -/
theorem C1_session_isolation (score : String → Doc → Nat)
    (store docsA : List Doc) (query : String) (k : Nat) (a b : String)
    (hab : a ≠ b) (hA : ∀ d ∈ docsA, getMeta d.metadata "session_id" = some a) :
    (∀ d ∈ similarity_search (pgBackend score (store ++ docsA)) query b k,
        getMeta d.metadata "session_id" = some b) ∧
    similarity_search (pgBackend score (store ++ docsA)) query b k =
      similarity_search (pgBackend score store) query b k := by
  have hmatch : ∀ d : Doc, matchesFilter [("session_id", b)] d = true ↔
      getMeta d.metadata "session_id" = some b := by
    intro d
    simp [matchesFilter]
  constructor
  · intro d hd
    simp only [similarity_search, pgBackend, backendSearch] at hd
    have h1 := List.mem_of_mem_take hd
    have h2 := (List.mem_insertionSort (scoreGe (score query))).mp h1
    exact (hmatch d).mp (List.mem_filter.mp h2).2
  · simp only [similarity_search, pgBackend, backendSearch]
    have hnil : docsA.filter (matchesFilter [("session_id", b)]) = [] := by
      rw [List.filter_eq_nil_iff]
      intro d hd hcon
      have := (hmatch d).mp hcon
      rw [hA d hd] at this
      exact hab (Option.some_injective _ this)
    rw [List.filter_append, hnil, List.append_nil]

/-- Witness for C1 at concrete sessions A and B. -/
theorem C1_witness :
    (("A" : String) ≠ "B" ∧
      ∀ d ∈ [wDocA], getMeta d.metadata "session_id" = some "A") ∧
    ((∀ d ∈ similarity_search (pgBackend score0 ([wDocB] ++ [wDocA])) "q" "B" 2,
        getMeta d.metadata "session_id" = some "B") ∧
      similarity_search (pgBackend score0 ([wDocB] ++ [wDocA])) "q" "B" 2 =
        similarity_search (pgBackend score0 [wDocB]) "q" "B" 2) :=
  ⟨⟨by decide, by decide⟩,
    C1_session_isolation score0 [wDocB] [wDocA] "q" 2 "A" "B" (by decide)
      (by decide)⟩

/-- C2 counterexample: an entry whose session_id is present but EMPTY
passes the validation of add_documents, so the batch is accepted and
stored, contrary to the claim that a batch with an entry lacking a
non-empty session id fails with a validation error. -/
theorem C2_counterexample :
    getMeta emptySidDoc.metadata "session_id" = some "" ∧
    add_documents true [] [emptySidDoc] = (Except.ok (), [emptySidDoc]) :=
  ⟨rfl, rfl⟩

/-- C2 amended: the validation of add_documents checks only that the
session_id KEY is present in every entry.  A batch with an entry missing
the key fails with the validation error and indexes nothing; a batch in
which every entry has the key (even with an empty value) is stored whole
when the backend add succeeds. -/
theorem C2_presence_validation (aaddOk : Bool) (store docs : List Doc) :
    ((∃ d ∈ docs, hasKey d.metadata "session_id" = false) →
      add_documents aaddOk store docs =
        (Except.error "session_id required in document metadata", store)) ∧
    ((∀ d ∈ docs, hasKey d.metadata "session_id" = true) → aaddOk = true →
      add_documents aaddOk store docs = (Except.ok (), store ++ docs)) := by
  constructor
  · rintro ⟨d, hd, hk⟩
    have hall : docs.all (fun d => hasKey d.metadata "session_id") = false := by
      rw [List.all_eq_false]
      exact ⟨d, hd, by simp [hk]⟩
    simp [add_documents, hall]
  · intro hall ha
    have hall' : docs.all (fun d => hasKey d.metadata "session_id") = true := by
      rw [List.all_eq_true]
      exact hall
    simp [add_documents, hall', ha]

/-- Witness for the amended C2 on both sides of the validation. -/
theorem C2_presence_validation_witness :
    (add_documents true [] [noSidDoc] =
      (Except.error "session_id required in document metadata", []) ∧
      add_documents true [] [emptySidDoc] = (Except.ok (), [emptySidDoc])) :=
  ⟨(C2_presence_validation true [] [noSidDoc]).1 ⟨noSidDoc, by decide, rfl⟩,
    (C2_presence_validation true [] [emptySidDoc]).2 (by decide) rfl⟩

/-- C8: when the vector backend raises on the gateway query, the gateway
catches the error and returns the empty result list. -/
theorem C8_backend_error_empty
    (backend : String → Nat → List (String × String) → Except String (List Doc))
    (query sid : String) (k : Nat) (e : String)
    (h : backend query k [("session_id", sid)] = Except.error e) :
    similarity_search backend query sid k = [] := by
  simp [similarity_search, h]

/-- Witness for C8 with a backend that always raises. -/
theorem C8_witness :
    ((fun (_ : String) (_ : Nat) (_ : List (String × String)) =>
        (Except.error "database unavailable" : Except String (List Doc)))
          "q" 4 [("session_id", "s")] = Except.error "database unavailable") ∧
    similarity_search
      (fun _ _ _ => Except.error "database unavailable") "q" "s" 4 = [] :=
  ⟨rfl, C8_backend_error_empty _ "q" "s" 4 "database unavailable" rfl⟩

theorem get_history_suffix_of_full (db : List StoredMsg) (sid : String)
    (limit : Nat) :
    get_history db sid limit <:+
      get_history db sid (db.filter (fun m => m.session_id == sid)).length := by
  unfold get_history
  rw [← List.length_insertionSort newerEq
      (db.filter (fun m => m.session_id == sid)),
    List.take_length]
  exact List.reverse_suffix.mpr (List.take_prefix limit _)

theorem get_history_most_recent (db : List StoredMsg) (sid : String)
    (limit : Nat) (m' : StoredMsg)
    (hm' : m' ∈ db.filter (fun m => m.session_id == sid))
    (hnot : m' ∉ get_history db sid limit) :
    ∀ m ∈ get_history db sid limit, m'.created_at ≤ m.created_at := by
  intro m hm
  have hs : (List.insertionSort newerEq
      (db.filter (fun m => m.session_id == sid))).Pairwise newerEq :=
    List.sorted_insertionSort newerEq _
  have hmtake : m ∈ (List.insertionSort newerEq
      (db.filter (fun m => m.session_id == sid))).take limit := by
    simpa [get_history] using hm
  have hnottake : m' ∉ (List.insertionSort newerEq
      (db.filter (fun m => m.session_id == sid))).take limit := by
    simpa [get_history] using hnot
  have hm's : m' ∈ List.insertionSort newerEq
      (db.filter (fun m => m.session_id == sid)) :=
    (List.mem_insertionSort newerEq).mpr hm'
  have hsplit : m' ∈ (List.insertionSort newerEq
      (db.filter (fun m => m.session_id == sid))).take limit ++
        (List.insertionSort newerEq
          (db.filter (fun m => m.session_id == sid))).drop limit := by
    rw [List.take_append_drop]; exact hm's
  have hdrop : m' ∈ (List.insertionSort newerEq
      (db.filter (fun m => m.session_id == sid))).drop limit := by
    rcases List.mem_append.mp hsplit with h | h
    · exact absurd h hnottake
    · exact h
  have hs' : ((List.insertionSort newerEq
      (db.filter (fun m => m.session_id == sid))).take limit ++
        (List.insertionSort newerEq
          (db.filter (fun m => m.session_id == sid))).drop limit).Pairwise
      newerEq := by
    rw [List.take_append_drop]; exact hs
  exact (List.pairwise_append.mp hs').2.2 m hmtake m' hdrop

/-- C9: get_history returns the MOST RECENT rows of the requested session:
only rows of the session, in non-decreasing creation-time order, exactly
min(limit, session total) of them; the window is a final segment of the
full chronological session history, and every session row left out of the
window is no newer than any returned row. -/
theorem C9_history_order_and_length (db : List StoredMsg) (sid : String)
    (limit : Nat) :
    (get_history db sid limit).Pairwise
        (fun a b => a.created_at ≤ b.created_at) ∧
    (get_history db sid limit).length =
      min limit (db.filter (fun m => m.session_id == sid)).length ∧
    (∀ m ∈ get_history db sid limit, m.session_id = sid) ∧
    (get_history db sid limit <:+
      get_history db sid (db.filter (fun m => m.session_id == sid)).length) ∧
    ∀ m' ∈ db.filter (fun m => m.session_id == sid),
      m' ∉ get_history db sid limit →
      ∀ m ∈ get_history db sid limit, m'.created_at ≤ m.created_at :=
  ⟨sorted_get_history db sid limit, length_get_history db sid limit,
    fun m hm => mem_get_history_session db sid limit m hm,
    get_history_suffix_of_full db sid limit,
    fun m' hm' hnot => get_history_most_recent db sid limit m' hm' hnot⟩

/-- A concrete two-session store for the C9 witness: session s holds an
old and a new row, another session holds a row in between. -/
def wDb : List StoredMsg :=
  [⟨"s", "user", "old", 0⟩, ⟨"t", "user", "other", 1⟩,
    ⟨"s", "assistant", "new", 2⟩]

/-- Witness for C9: at limit 1 the window is the single newest session
row, and every conjunct holds there. -/
theorem C9_witness :
    (get_history wDb "s" 1).Pairwise
        (fun a b => a.created_at ≤ b.created_at) ∧
    (get_history wDb "s" 1).length =
      min 1 (wDb.filter (fun m => m.session_id == "s")).length ∧
    (∀ m ∈ get_history wDb "s" 1, m.session_id = "s") ∧
    (get_history wDb "s" 1 <:+
      get_history wDb "s" (wDb.filter (fun m => m.session_id == "s")).length) ∧
    ∀ m' ∈ wDb.filter (fun m => m.session_id == "s"),
      m' ∉ get_history wDb "s" 1 →
      ∀ m ∈ get_history wDb "s" 1, m'.created_at ≤ m.created_at :=
  C9_history_order_and_length wDb "s" 1

theorem fallback_response_ne_empty (llm : List LlmMsg → Except String String)
    (um : String) (hne : ∀ ms r, llm ms = Except.ok r → r ≠ "") :
    fallback_response llm um ≠ "" := by
  unfold fallback_response
  cases hfb : llm (fallback_messages um) with
  | ok r => exact hne _ r hfb
  | error e =>
    show apology_text ≠ ""
    decide

theorem mem_add_message_self (db : List StoredMsg) (sid role content : String) :
    (⟨sid, role, content, db.length⟩ : StoredMsg) ∈
      add_message db sid role content := by
  simp [add_message]

/-- C4: once the user message is appended, a failure of any later step
(history fetch, LLM call, reply save) makes generate_response return the
fallback instead of propagating; the fallback itself degrades to the fixed
apology when its own LLM call fails; and with the vector backend raising
on every call the caller still gets a non-empty string while the user
message stays recorded. -/
theorem C4_failure_policy (env : ChatEnv) (score : String → Doc → Nat)
    (vstore : List Doc) (db : List StoredMsg) (sid um : String)
    (hadd : env.addUserOk = true) :
    ((env.getHistOk = false ∨
        (∃ e, env.llmRes (main_request env score vstore db sid um) =
          Except.error e) ∨
        env.addAsstOk = false) →
      (generate_response env score vstore db sid um).reply =
        fallback_response env.llmRes um) ∧
    ((∃ e, env.llmRes (fallback_messages um) = Except.error e) →
      fallback_response env.llmRes um = apology_text) ∧
    (env.backendErr = true →
      (∀ ms r, env.llmRes ms = Except.ok r → r ≠ "") →
      (generate_response env score vstore db sid um).reply ≠ "" ∧
      (⟨sid, "user", um, db.length⟩ : StoredMsg) ∈
        (generate_response env score vstore db sid um).finalHistory) := by
  refine ⟨?_, ?_, ?_⟩
  · intro h
    cases hh : env.getHistOk with
    | false => simp [generate_response, hadd, hh]
    | true =>
      cases hllm : env.llmRes (main_request env score vstore db sid um) with
      | error e => simp [generate_response, hadd, hh, hllm]
      | ok am =>
        cases ha : env.addAsstOk with
        | false => simp [generate_response, hadd, hh, hllm, ha]
        | true =>
          exfalso
          rcases h with h | ⟨e, he⟩ | h
          · exact absurd hh (by simp [h])
          · rw [hllm] at he; exact Except.noConfusion he
          · exact absurd ha (by simp [h])
  · rintro ⟨e, he⟩
    simp [fallback_response, he]
  · intro _ hne
    have hmem1 : (⟨sid, "user", um, db.length⟩ : StoredMsg) ∈
        add_message db sid "user" um := mem_add_message_self db sid "user" um
    have hfb := fallback_response_ne_empty env.llmRes um hne
    cases hh : env.getHistOk with
    | false =>
      refine ⟨?_, ?_⟩
      · simpa [generate_response, hadd, hh] using hfb
      · simpa [generate_response, hadd, hh] using hmem1
    | true =>
      cases hllm : env.llmRes (main_request env score vstore db sid um) with
      | error e =>
        refine ⟨?_, ?_⟩
        · simpa [generate_response, hadd, hh, hllm] using hfb
        · simpa [generate_response, hadd, hh, hllm] using hmem1
      | ok am =>
        cases ha : env.addAsstOk with
        | false =>
          refine ⟨?_, ?_⟩
          · simpa [generate_response, hadd, hh, hllm, ha] using hfb
          · simpa [generate_response, hadd, hh, hllm, ha] using hmem1
        | true =>
          refine ⟨?_, ?_⟩
          · simpa [generate_response, hadd, hh, hllm, ha] using hne _ am hllm
          · simp only [generate_response, hadd, hh, hllm, ha]
            simp [add_message]

/-- The environment of the C4 witness: healthy history store, vector
backend raising on every call, LLM failing on every call. -/
def envC4 : ChatEnv :=
  ⟨true, true, true, fun _ => Except.error "llm unavailable", true⟩

/-- Witness for C4: every hypothesis discharged at a concrete input. -/
theorem C4_witness :
    envC4.addUserOk = true ∧
    (((envC4.getHistOk = false ∨
        (∃ e, envC4.llmRes (main_request envC4 score0 [] [] "s" "hello") =
          Except.error e) ∨
        envC4.addAsstOk = false) →
      (generate_response envC4 score0 [] [] "s" "hello").reply =
        fallback_response envC4.llmRes "hello") ∧
    ((∃ e, envC4.llmRes (fallback_messages "hello") = Except.error e) →
      fallback_response envC4.llmRes "hello" = apology_text) ∧
    (envC4.backendErr = true →
      (∀ ms r, envC4.llmRes ms = Except.ok r → r ≠ "") →
      (generate_response envC4 score0 [] [] "s" "hello").reply ≠ "" ∧
      (⟨"s", "user", "hello", List.length ([] : List StoredMsg)⟩ : StoredMsg) ∈
        (generate_response envC4 score0 [] [] "s" "hello").finalHistory)) :=
  ⟨rfl, C4_failure_policy envC4 score0 [] [] "s" "hello" rfl⟩

/-- C10: generate_response is total over every behaviour of its services,
and in the uncovered step-1 case (the very first write of the user message
fails) it still answers with the fallback, degrading to the fixed apology
when the fallback LLM call fails too, while the user message is not
recorded. -/
theorem C10_step1_failure (env : ChatEnv) (score : String → Doc → Nat)
    (vstore : List Doc) (db : List StoredMsg) (sid um : String)
    (h : env.addUserOk = false) :
    (generate_response env score vstore db sid um).reply =
      fallback_response env.llmRes um ∧
    (generate_response env score vstore db sid um).finalHistory = db ∧
    (∀ e, env.llmRes (fallback_messages um) = Except.error e →
      (generate_response env score vstore db sid um).reply = apology_text) := by
  refine ⟨by simp [generate_response, h], by simp [generate_response, h], ?_⟩
  intro e he
  simp [generate_response, h, fallback_response, he]

/-- The environment of the C10 witness: the initial user-message write
fails and the LLM raises on every call. -/
def envC10 : ChatEnv :=
  ⟨false, true, false, fun _ => Except.error "llm unavailable", true⟩

/-- Witness for C10 in the step-1 failure case. -/
theorem C10_witness :
    envC10.addUserOk = false ∧
    ((generate_response envC10 score0 [] [] "s" "hello").reply =
      fallback_response envC10.llmRes "hello" ∧
    (generate_response envC10 score0 [] [] "s" "hello").finalHistory = [] ∧
    (∀ e, envC10.llmRes (fallback_messages "hello") = Except.error e →
      (generate_response envC10 score0 [] [] "s" "hello").reply =
        apology_text)) :=
  ⟨rfl, C10_step1_failure envC10 score0 [] [] "s" "hello" rfl⟩

/-- The history list fetched on the main path: read AFTER the current user
message was appended, so it contains that message as its newest row. -/
def fetched_history (db : List StoredMsg) (sid um : String) : List StoredMsg :=
  get_history (add_message db sid "user" um) sid 10

/-- The context string joined from the session-filtered retrieval. -/
def retrieved_context (env : ChatEnv) (score : String → Doc → Nat)
    (vstore : List Doc) (um sid : String) : String :=
  if (similarity_search (envBackend env score vstore) um sid 4).isEmpty then ""
  else String.intercalate "\n\n"
    ((similarity_search (envBackend env score vstore) um sid 4).map
      Doc.page_content)

/-- The environment of the C3 run: every service healthy. -/
def env0 : ChatEnv :=
  ⟨true, true, false, fun _ => Except.ok "fine", true⟩

/-- C3 counterexample: on a fresh session the generation request contains
the current user message TWICE — once through the history window (the
history is fetched after the message was appended and is not filtered) and
once as the final message — refuting the claim that it appears exactly
once. -/
theorem C3_counterexample :
    (generate_response env0 score0 [] [] "s" "hi").requests =
      [[LlmMsg.system plain_system_prompt, LlmMsg.human "hi",
        LlmMsg.human "hi"]] ∧
    ¬ (main_request env0 score0 [] [] "s" "hi").count (LlmMsg.human "hi") = 1 :=
  ⟨rfl, by decide⟩

/-- C3 amended: the request is one instruction message (depending on
whether context is non-empty), then the last six rows of the history
fetched after appending the current user message — a window that always
contains that message — mapped to their roles, then the current user
message again; hence the current user message appears at least twice. -/
theorem C3_request_shape (env : ChatEnv) (score : String → Doc → Nat)
    (vstore : List Doc) (db : List StoredMsg) (sid um : String)
    (h1 : env.addUserOk = true) (h2 : env.getHistOk = true)
    (hclock : ∀ m ∈ db, m.created_at < db.length) :
    (generate_response env score vstore db sid um).requests.head? =
      some (main_request env score vstore db sid um) ∧
    main_request env score vstore db sid um =
      [LlmMsg.system
          (if retrieved_context env score vstore um sid ≠ "" then
            rag_system_prompt (retrieved_context env score vstore um sid)
          else plain_system_prompt)]
        ++ ((fetched_history db sid um).drop
              ((fetched_history db sid um).length - 6)).filterMap roleToMsg
        ++ [LlmMsg.human um] ∧
    LlmMsg.human um ∈
      ((fetched_history db sid um).drop
        ((fetched_history db sid um).length - 6)).filterMap roleToMsg ∧
    2 ≤ (main_request env score vstore db sid um).count (LlmMsg.human um) := by
  have hkey : LlmMsg.human um ∈
      ((fetched_history db sid um).drop
        ((fetched_history db sid um).length - 6)).filterMap roleToMsg := by
    have hfl : (add_message db sid "user" um).filter
        (fun m => m.session_id == sid) =
        db.filter (fun m => m.session_id == sid) ++
          [⟨sid, "user", um, db.length⟩] := by
      simp [add_message, List.filter_append]
    have hmax : ∀ a ∈ db.filter (fun m => m.session_id == sid),
        a.created_at < (⟨sid, "user", um, db.length⟩ : StoredMsg).created_at :=
      fun a ha => hclock a (List.mem_of_mem_filter ha)
    obtain ⟨t, hsort⟩ :=
      insertionSort_strict_max_head (db.filter (fun m => m.session_id == sid))
        ⟨sid, "user", um, db.length⟩ hmax
    have hhist : fetched_history db sid um =
        (t.take 9).reverse ++ [⟨sid, "user", um, db.length⟩] := by
      simp only [fetched_history, get_history, hfl, hsort]
      rw [show (10 : Nat) = 9 + 1 from rfl, List.take_succ_cons,
        List.reverse_cons]
    rw [hhist]
    apply List.mem_filterMap.mpr
    refine ⟨⟨sid, "user", um, db.length⟩, ?_, by simp [roleToMsg]⟩
    apply mem_drop_append_singleton
    simp
  refine ⟨?_, rfl, hkey, ?_⟩
  · cases hllm : env.llmRes (main_request env score vstore db sid um) with
    | error e => simp [generate_response, h1, h2, hllm]
    | ok am =>
      cases ha : env.addAsstOk with
      | false => simp [generate_response, h1, h2, hllm, ha]
      | true => simp [generate_response, h1, h2, hllm, ha]
  · have hmr : main_request env score vstore db sid um =
        [LlmMsg.system
            (if retrieved_context env score vstore um sid ≠ "" then
              rag_system_prompt (retrieved_context env score vstore um sid)
            else plain_system_prompt)]
          ++ ((fetched_history db sid um).drop
                ((fetched_history db sid um).length - 6)).filterMap roleToMsg
          ++ [LlmMsg.human um] := rfl
    rw [hmr]
    have hone : 1 ≤ List.count (LlmMsg.human um)
        (((fetched_history db sid um).drop
          ((fetched_history db sid um).length - 6)).filterMap roleToMsg) :=
      List.one_le_count_iff.mpr hkey
    rw [List.count_append, List.count_append]
    have hsys : List.count (LlmMsg.human um)
        [LlmMsg.system
          (if retrieved_context env score vstore um sid ≠ "" then
            rag_system_prompt (retrieved_context env score vstore um sid)
          else plain_system_prompt)] = 0 := by
      simp [List.count_singleton]
    have hlast : List.count (LlmMsg.human um) [LlmMsg.human um] = 1 :=
      List.count_singleton_self _
    omega

/-- Witness for the amended C3 on a fresh session. -/
theorem C3_request_shape_witness :
    (env0.addUserOk = true ∧ env0.getHistOk = true ∧
      (∀ m ∈ ([] : List StoredMsg), m.created_at < List.length ([] : List StoredMsg))) ∧
    ((generate_response env0 score0 [] [] "s" "hi").requests.head? =
      some (main_request env0 score0 [] [] "s" "hi") ∧
    main_request env0 score0 [] [] "s" "hi" =
      [LlmMsg.system
          (if retrieved_context env0 score0 [] "hi" "s" ≠ "" then
            rag_system_prompt (retrieved_context env0 score0 [] "hi" "s")
          else plain_system_prompt)]
        ++ ((fetched_history [] "s" "hi").drop
              ((fetched_history [] "s" "hi").length - 6)).filterMap roleToMsg
        ++ [LlmMsg.human "hi"] ∧
    LlmMsg.human "hi" ∈
      ((fetched_history [] "s" "hi").drop
        ((fetched_history [] "s" "hi").length - 6)).filterMap roleToMsg ∧
    2 ≤ (main_request env0 score0 [] [] "s" "hi").count (LlmMsg.human "hi")) :=
  ⟨⟨rfl, rfl, by simp⟩,
    C3_request_shape env0 score0 [] [] "s" "hi" rfl rfl (by simp)⟩

theorem hasKey_eq_isSome (m : List (String × String)) (k : String) :
    hasKey m k = (getMeta m k).isSome := by
  induction m with
  | nil => rfl
  | cons a t ih =>
    by_cases ha : a.1 = k
    · have h1 : (a.1 == k) = true := by simp [ha]
      simp [hasKey, getMeta, List.find?, h1]
    · have h1 : (a.1 == k) = false := by simp [beq_eq_false_iff_ne, ha]
      simpa [hasKey, getMeta, List.find?, h1] using ih

theorem getMeta_stamp_session (sid docId fn : String) (c : Doc) :
    getMeta (stampChunk sid docId fn c).metadata "session_id" = some sid := by
  simp only [stampChunk]
  rw [getMeta_setMeta_other _ _ _ _ (by decide),
    getMeta_setMeta_other _ _ _ _ (by decide), getMeta_setMeta_same]

theorem getMeta_stamp_document (sid docId fn : String) (c : Doc) :
    getMeta (stampChunk sid docId fn c).metadata "document_id" = some docId := by
  simp only [stampChunk]
  rw [getMeta_setMeta_other _ _ _ _ (by decide), getMeta_setMeta_same]

theorem getMeta_stamp_filename (sid docId fn : String) (c : Doc) :
    getMeta (stampChunk sid docId fn c).metadata "filename" = some fn := by
  simp only [stampChunk]
  rw [getMeta_setMeta_same]

theorem stamped_all_hasKey (chunks : List Doc) (sid docId fn : String) :
    (chunks.map (stampChunk sid docId fn)).all
      (fun d => hasKey d.metadata "session_id") = true := by
  rw [List.all_eq_true]
  intro d hd
  rcases List.mem_map.mp hd with ⟨c, _, rfl⟩
  rw [hasKey_eq_isSome, getMeta_stamp_session]
  rfl

/-- The step-failure pattern of the C5 counterexample: the update to
processing itself fails, the failed update in the handler succeeds. -/
def envC5 : IngestEnv := ⟨true, false, true, true, true, true, true⟩

/-- An all-steps-succeed ingestion environment. -/
def envAllOk : IngestEnv := ⟨true, true, true, true, true, true, true⟩

/-- A plain unstamped chunk. -/
def chunk0 : Doc := ⟨"sample text", []⟩

/-- C5 counterexample: when the processing-status update itself fails, the
except handler writes failed directly, so the observed sequence is
pending, failed — skipping processing, which the claim rules out. -/
theorem C5_counterexample :
    (ingest_document envC5 [] [] id "s" "d" "f.txt" "text/plain").trace =
      [DocStatus.pending, DocStatus.failed] ∧
    status_trace_ok [DocStatus.pending, DocStatus.failed] = false :=
  ⟨rfl, rfl⟩

/-- C5 amended: whenever the transition to processing succeeds, the
observed status sequence is a prefix of pending, processing,
(indexed | failed), under every pattern of success and failure of the
remaining steps; in particular terminal states are never left. -/
theorem C5_status_monotonic (env : IngestEnv) (vstore parsed : List Doc)
    (splitter : List Doc → List Doc) (sid docId fn mime : String)
    (h : env.procUpdOk = true) :
    status_trace_ok
      (ingest_document env vstore parsed splitter sid docId fn mime).trace =
      true := by
  obtain ⟨c, p, t, l, a, i, f⟩ := env
  simp only at h
  subst h
  have hval := stamped_all_hasKey (splitter parsed) sid docId fn
  cases c with
  | false => rfl
  | true =>
    cases t with
    | false => cases f <;> rfl
    | true =>
      rcases hsel : selectLoader mime with e | lk
      · cases f <;> simp [ingest_document, hsel, status_trace_ok, failTail]
      · cases l with
        | false => cases f <;> simp [ingest_document, hsel, status_trace_ok, failTail]
        | true =>
          cases a with
          | false =>
            cases f <;>
              simp [ingest_document, hsel, add_documents, hval,
                status_trace_ok, failTail]
          | true =>
            cases i with
            | false =>
              cases f <;>
                simp [ingest_document, hsel, add_documents, hval,
                  status_trace_ok, failTail]
            | true =>
              simp [ingest_document, hsel, add_documents, hval,
                status_trace_ok]

/-- Witness for the amended C5 with every step succeeding. -/
theorem C5_status_monotonic_witness :
    envAllOk.procUpdOk = true ∧
    status_trace_ok
      (ingest_document envAllOk [] [chunk0] id "s" "d" "f.txt"
        "text/plain").trace = true :=
  ⟨rfl, C5_status_monotonic envAllOk [] [chunk0] id "s" "d" "f.txt"
    "text/plain" rfl⟩

/-- C6 counterexample: text/markdown is not one of the two MIME types the
claim allows, yet the pipeline selects the text loader for it, runs to
completion, indexes its chunks and marks the document indexed. -/
theorem C6_counterexample :
    ("text/markdown" ∉ upload_allowed_types) ∧
    selectLoader "text/markdown" = Except.ok LoaderKind.text ∧
    (ingest_document envAllOk [] [chunk0] id "s" "d" "f.md"
        "text/markdown").trace =
      [DocStatus.pending, DocStatus.processing, DocStatus.indexed] ∧
    (ingest_document envAllOk [] [chunk0] id "s" "d" "f.md"
        "text/markdown").store = [stampChunk "s" "d" "f.md" chunk0] :=
  ⟨by decide, rfl, rfl, rfl⟩

/-- C6 amended: the upload route accepts exactly application/pdf and
text/plain, while the pipeline accepts those two plus text/markdown; for
every other declared MIME type the pipeline raises the typed unsupported
format error, the document is transitioned to failed, and nothing is
indexed. -/
theorem C6_unsupported_mime (env : IngestEnv) (vstore parsed : List Doc)
    (splitter : List Doc → List Doc) (sid docId fn mime : String)
    (hm1 : mime ≠ "application/pdf") (hm2 : mime ≠ "text/plain")
    (hm3 : mime ≠ "text/markdown")
    (h1 : env.createOk = true) (h2 : env.procUpdOk = true)
    (h3 : env.tempWriteOk = true) (h4 : env.failedUpdOk = true) :
    selectLoader mime = Except.error ("Unsupported file type: " ++ mime) ∧
    (ingest_document env vstore parsed splitter sid docId fn mime).trace =
      [DocStatus.pending, DocStatus.processing, DocStatus.failed] ∧
    (ingest_document env vstore parsed splitter sid docId fn mime).store =
      vstore ∧
    (ingest_document env vstore parsed splitter sid docId fn mime).ret =
      none ∧
    uploadAccepts mime = false := by
  have b1 : (mime == "application/pdf") = false := by
    simpa [beq_eq_false_iff_ne] using hm1
  have b2 : (mime == "text/plain") = false := by
    simpa [beq_eq_false_iff_ne] using hm2
  have b3 : (mime == "text/markdown") = false := by
    simpa [beq_eq_false_iff_ne] using hm3
  have hsel : selectLoader mime =
      Except.error ("Unsupported file type: " ++ mime) := by
    simp [selectLoader, b1, b2, b3]
  refine ⟨hsel, ?_, ?_, ?_, ?_⟩
  · simp [ingest_document, h1, h2, h3, hsel, failTail, h4]
  · simp [ingest_document, h1, h2, h3, hsel]
  · simp [ingest_document, h1, h2, h3, hsel]
  · simp [uploadAccepts, upload_allowed_types, hm1, hm2]

/-- Witness for the amended C6 at a concrete unsupported MIME type. -/
theorem C6_unsupported_mime_witness :
    (("image/png" : String) ≠ "application/pdf" ∧
      ("image/png" : String) ≠ "text/plain" ∧
      ("image/png" : String) ≠ "text/markdown" ∧
      envAllOk.createOk = true ∧ envAllOk.procUpdOk = true ∧
      envAllOk.tempWriteOk = true ∧ envAllOk.failedUpdOk = true) ∧
    (selectLoader "image/png" =
        Except.error ("Unsupported file type: " ++ "image/png") ∧
      (ingest_document envAllOk [] [chunk0] id "s" "d" "f.png"
          "image/png").trace =
        [DocStatus.pending, DocStatus.processing, DocStatus.failed] ∧
      (ingest_document envAllOk [] [chunk0] id "s" "d" "f.png"
          "image/png").store = [] ∧
      (ingest_document envAllOk [] [chunk0] id "s" "d" "f.png"
          "image/png").ret = none ∧
      uploadAccepts "image/png" = false) :=
  ⟨⟨by decide, by decide, by decide, rfl, rfl, rfl, rfl⟩,
    C6_unsupported_mime envAllOk [] [chunk0] id "s" "d" "f.png" "image/png"
      (by decide) (by decide) (by decide) rfl rfl rfl rfl⟩

/-- A successful ingest_document call ran the whole pipeline: the result
is the indexed trace, the store extended by exactly the stamped chunks,
and the document id. -/
theorem ingest_success_characterization (env : IngestEnv)
    (vstore parsed : List Doc) (splitter : List Doc → List Doc)
    (sid docId fn mime : String)
    (h : (ingest_document env vstore parsed splitter sid docId fn mime).ret ≠
      none) :
    ingest_document env vstore parsed splitter sid docId fn mime =
      ⟨[DocStatus.pending, DocStatus.processing, DocStatus.indexed],
        vstore ++ (splitter parsed).map (stampChunk sid docId fn),
        some docId⟩ := by
  have hval := stamped_all_hasKey (splitter parsed) sid docId fn
  cases hc : env.createOk with
  | false => exact absurd (by simp [ingest_document, hc]) h
  | true =>
  cases hp : env.procUpdOk with
  | false => exact absurd (by simp [ingest_document, hc, hp]) h
  | true =>
  cases ht : env.tempWriteOk with
  | false => exact absurd (by simp [ingest_document, hc, hp, ht]) h
  | true =>
  rcases hsel : selectLoader mime with e | lk
  · exact absurd (by simp [ingest_document, hc, hp, ht, hsel]) h
  cases hl : env.loadOk with
  | false => exact absurd (by simp [ingest_document, hc, hp, ht, hsel, hl]) h
  | true =>
  cases ha : env.aaddOk with
  | false =>
    exact absurd
      (by simp [ingest_document, hc, hp, ht, hsel, hl, add_documents, hval, ha]) h
  | true =>
  cases hi : env.indexedUpdOk with
  | false =>
    exact absurd
      (by simp [ingest_document, hc, hp, ht, hsel, hl, add_documents, hval, ha, hi]) h
  | true =>
    simp [ingest_document, hc, hp, ht, hsel, hl, add_documents, hval, ha, hi]

/-- C7: for every successful ingest, the batch handed to the vector store
is exactly the chunker output for this document — same length, in order,
none dropped or duplicated — and every chunk of the batch already carries
the session id, document id and filename stamps. -/
theorem C7_chunk_integrity (env : IngestEnv) (vstore parsed : List Doc)
    (splitter : List Doc → List Doc) (sid docId fn mime : String)
    (h : (ingest_document env vstore parsed splitter sid docId fn mime).ret ≠
      none) :
    (ingest_document env vstore parsed splitter sid docId fn mime).store =
      vstore ++ (splitter parsed).map (stampChunk sid docId fn) ∧
    ((splitter parsed).map (stampChunk sid docId fn)).length =
      (splitter parsed).length ∧
    ∀ d ∈ (splitter parsed).map (stampChunk sid docId fn),
      getMeta d.metadata "session_id" = some sid ∧
      getMeta d.metadata "document_id" = some docId ∧
      getMeta d.metadata "filename" = some fn := by
  refine ⟨?_, List.length_map _ _, ?_⟩
  · rw [ingest_success_characterization env vstore parsed splitter sid docId
      fn mime h]
  · intro d hd
    rcases List.mem_map.mp hd with ⟨c, _, rfl⟩
    exact ⟨getMeta_stamp_session sid docId fn c,
      getMeta_stamp_document sid docId fn c,
      getMeta_stamp_filename sid docId fn c⟩

/-- Witness for C7 on a concrete successful ingest. -/
theorem C7_witness :
    (ingest_document envAllOk [] [chunk0] id "s" "d" "f.txt"
        "text/plain").ret ≠ none ∧
    ((ingest_document envAllOk [] [chunk0] id "s" "d" "f.txt"
        "text/plain").store =
      [] ++ (id [chunk0]).map (stampChunk "s" "d" "f.txt") ∧
    ((id [chunk0]).map (stampChunk "s" "d" "f.txt")).length =
      (id [chunk0]).length ∧
    ∀ d ∈ (id [chunk0]).map (stampChunk "s" "d" "f.txt"),
      getMeta d.metadata "session_id" = some "s" ∧
      getMeta d.metadata "document_id" = some "d" ∧
      getMeta d.metadata "filename" = some "f.txt") :=
  ⟨by decide,
    C7_chunk_integrity envAllOk [] [chunk0] id "s" "d" "f.txt" "text/plain"
      (by decide)⟩

end RagChatbot
